import Mathlib

/-!
Verification of the smart-home API gateway core (Go sources under
`gateway_cli/` and the gateway processor package) against its
natural-language specification.

The Go code is shallowly embedded: machine integers (`int`, `int64`)
become `Int`, wall-clock instants and durations become `ℚ` (seconds),
`float64` arithmetic in the token bucket is idealised as exact rational
arithmetic with Go's `int(...)` conversion modelled as truncation toward
zero, maps become association lists or explicit heaps, and effectful
calls (HTTP, Redis streams) become oracles passed in as explicit data.
-/

/-! ## Rate limiter (`internal/gateway/middleware/rate_limiter.go`)

`ClientLimiter` holds `tokens int` and `lastRefill time.Time`; we model
the timestamp as rational seconds.  Go's `int(elapsed.Seconds() *
float64(rpm) / 60.0)` truncates toward zero; `goTrunc` is that
conversion on exact rationals. -/

/-- Go's `int(x)` conversion on a rational: truncation toward zero. -/
def goTrunc (q : ℚ) : ℤ := if 0 ≤ q then ⌊q⌋ else ⌈q⌉

structure ClientLimiter where
  tokens : ℤ
  lastRefill : ℚ
  deriving Repr, DecidableEq

/-- `ClientLimiter.allow` from `rate_limiter.go` lines 77–101: refill by
`int(elapsed.Seconds() * rpm / 60.0)`, cap at `burst`, stamp
`lastRefill = now`, then consume one token if any are available. -/
def ClientLimiter.allow (cl : ClientLimiter) (rpm burst : ℤ) (now : ℚ) :
    Bool × ClientLimiter :=
  let elapsed : ℚ := now - cl.lastRefill
  let tokensToAdd : ℤ := goTrunc (elapsed * (rpm : ℚ) / 60)
  let t1 : ℤ := cl.tokens + tokensToAdd
  let t2 : ℤ := if t1 > burst then burst else t1
  if t2 > 0 then (true, { tokens := t2 - 1, lastRefill := now })
  else (false, { tokens := t2, lastRefill := now })

structure RateLimiter where
  clients : List (String × ClientLimiter)
  rpm : ℤ
  burst : ℤ
  deriving Repr, DecidableEq

/-- Association-list lookup (models Go map read `rl.clients[clientID]`). -/
def alookup (k : String) : List (String × ClientLimiter) → Option ClientLimiter
  | [] => none
  | (k', v) :: rest => if k' = k then some v else alookup k rest

/-- Association-list store (models Go map write `rl.clients[clientID] = c`). -/
def astore (k : String) (v : ClientLimiter) :
    List (String × ClientLimiter) → List (String × ClientLimiter)
  | [] => [(k, v)]
  | (k', v') :: rest =>
      if k' = k then (k, v) :: rest else (k', v') :: astore k v rest

/-- `RateLimiter.Allow` from `rate_limiter.go` lines 58–75: look the
client up; if absent, create it with `tokens = burst, lastRefill = now`
and store it; then run the per-client `allow`.  (In Go the mutation
happens through the shared pointer; here we return the updated table.) -/
def RateLimiter.Allow (rl : RateLimiter) (clientID : String) (now : ℚ) :
    Bool × RateLimiter :=
  let client : ClientLimiter :=
    match alookup clientID rl.clients with
    | some c => c
    | none => { tokens := rl.burst, lastRefill := now }
  let (ok, c') := client.allow rl.rpm rl.burst now
  (ok, { rl with clients := astore clientID c' rl.clients })

/-- Run `RateLimiter.Allow` for one client at each instant of a time
list, collecting the verdicts. -/
def RateLimiter.allowTimes (rl : RateLimiter) (clientID : String) :
    List ℚ → List Bool × RateLimiter
  | [] => ([], rl)
  | t :: ts =>
      let (b, rl') := rl.Allow clientID t
      let (bs, rl'') := rl'.allowTimes clientID ts
      (b :: bs, rl'')

/-- Run `ClientLimiter.allow` at each instant of a time list. -/
def ClientLimiter.allowTimes (cl : ClientLimiter) (rpm burst : ℤ) :
    List ℚ → List Bool × ClientLimiter
  | [] => ([], cl)
  | t :: ts =>
      let (b, cl') := cl.allow rpm burst t
      let (bs, cl'') := cl'.allowTimes rpm burst ts
      (b :: bs, cl'')

example : goTrunc (7/2) = 3 := by norm_num [goTrunc]
example : goTrunc (-7/2 : ℚ) = -3 := by norm_num [goTrunc, Int.ceil_neg]

/-- `goTrunc` of a rational in `[0, 1)` is `0` (no token added when less
than `60/rpm` seconds have elapsed). -/
theorem goTrunc_eq_zero {q : ℚ} (h0 : 0 ≤ q) (h1 : q < 1) : goTrunc q = 0 := by
  simp only [goTrunc, if_pos h0]
  exact Int.floor_eq_zero_iff.mpr ⟨h0, h1⟩

/-- One `allow` call on an empty bucket, made less than `60/rpm` seconds
after the previous refill stamp, admits nothing and leaves the bucket
empty (but still advances `lastRefill`). -/
theorem allow_empty_step {rpm burst : ℤ} (hr : 0 < rpm) (hb : 0 ≤ burst)
    {t now : ℚ} (h0 : 0 ≤ now - t) (h1 : now - t < 60 / (rpm : ℚ)) :
    ClientLimiter.allow ⟨0, t⟩ rpm burst now = (false, ⟨0, now⟩) := by
  have hrq : (0 : ℚ) < (rpm : ℚ) := by exact_mod_cast hr
  have hx0 : 0 ≤ (now - t) * (rpm : ℚ) / 60 := by positivity
  have hx1 : (now - t) * (rpm : ℚ) / 60 < 1 := by
    rw [div_lt_one (by norm_num : (0:ℚ) < 60)]
    calc (now - t) * (rpm : ℚ) < (60 / (rpm : ℚ)) * (rpm : ℚ) := by
          exact mul_lt_mul_of_pos_right h1 hrq
      _ = 60 := by field_simp
  simp only [ClientLimiter.allow, goTrunc_eq_zero hx0 hx1]
  have hcap : ¬ ((0 : ℤ) + 0 > burst) := by omega
  simp only [if_neg hcap]
  norm_num

/-- Consecutive times each spaced a nonnegative amount strictly below
`60/rpm` seconds apart, starting from refill stamp `t`. -/
def gapsOk (rpm : ℤ) : ℚ → List ℚ → Prop
  | _, [] => True
  | t, t' :: ts => (0 ≤ t' - t ∧ t' - t < 60 / (rpm : ℚ)) ∧ gapsOk rpm t' ts

/-- Starting from an empty bucket, a whole run of calls spaced below the
refill granularity is denied throughout and never accumulates a token. -/
theorem allowTimes_starved {rpm burst : ℤ} (hr : 0 < rpm) (hb : 0 ≤ burst) :
    ∀ (ts : List ℚ) (t0 : ℚ), gapsOk rpm t0 ts →
      ClientLimiter.allowTimes ⟨0, t0⟩ rpm burst ts
        = (List.replicate ts.length false, ⟨0, ts.getLastD t0⟩)
  | [], t0, _ => rfl
  | t' :: ts, t0, h => by
      obtain ⟨⟨h0, h1⟩, hrest⟩ := h
      have hstep : ClientLimiter.allow ⟨0, t0⟩ rpm burst t' = (false, ⟨0, t'⟩) :=
        allow_empty_step hr hb h0 h1
      have hrec := allowTimes_starved hr hb ts t' hrest
      simp only [ClientLimiter.allowTimes, hstep, hrec, List.length_cons,
        List.replicate_succ, List.getLastD_cons]
example :
    (RateLimiter.Allow { clients := [], rpm := 100, burst := 0 } "c" 0).1
      = false := by
  norm_num [RateLimiter.Allow, ClientLimiter.allow, alookup, goTrunc]

/-- C10: every `ClientLimiter.allow` call stamps `lastRefill := now` even
when the truncated refill amount is zero; consequently a client with an
empty bucket whose calls are each spaced a nonnegative amount strictly
less than `60/rpm` seconds apart never gains a token and is denied on
every call, no matter how much total wall-clock time elapses. -/
theorem C10_refill_stamp_starvation :
    (∀ (cl : ClientLimiter) (rpm burst : ℤ) (now : ℚ),
      ((ClientLimiter.allow cl rpm burst now).2).lastRefill = now) ∧
    (∀ (rpm burst : ℤ), 0 < rpm → 0 ≤ burst →
      ∀ (t0 : ℚ) (ts : List ℚ), gapsOk rpm t0 ts →
        (ClientLimiter.allowTimes ⟨0, t0⟩ rpm burst ts).1
            = List.replicate ts.length false ∧
        (ClientLimiter.allowTimes ⟨0, t0⟩ rpm burst ts).2.tokens = 0) := by
  constructor
  · intro cl rpm burst now
    simp only [ClientLimiter.allow]
    split <;> split <;> rfl
  · intro rpm burst hr hb t0 ts h
    rw [allowTimes_starved hr hb ts t0 h]
    exact ⟨rfl, rfl⟩

/-- Witness for C10: concrete run — `rpm = 60`, `burst = 10`, bucket
empty at time `0`, calls at `1/2` and `3/4` (gaps below one second): both
denied, bucket still empty, and a single `allow` call at time `3` stamps
`lastRefill = 3`. -/
theorem C10_refill_stamp_starvation_witness :
    ((ClientLimiter.allow ⟨5, 0⟩ 60 10 3).2).lastRefill = 3 ∧
    (ClientLimiter.allowTimes ⟨0, 0⟩ 60 10 [1/2, 3/4]).1
        = List.replicate 2 false ∧
    (ClientLimiter.allowTimes ⟨0, 0⟩ 60 10 [1/2, 3/4]).2.tokens = 0 := by
  refine ⟨C10_refill_stamp_starvation.1 ⟨5, 0⟩ 60 10 3,
    C10_refill_stamp_starvation.2 60 10 (by norm_num) (by norm_num) 0 [1/2, 3/4] ?_⟩
  simp only [gapsOk]
  norm_num
example :
    (RateLimiter.Allow { clients := [], rpm := 100, burst := 2 } "c" 0).1
      = true := by
  norm_num [RateLimiter.Allow, ClientLimiter.allow, alookup, goTrunc]

/-! ### Claim C6 — first-ever call for an unseen client -/

/-- The claim as stated: for every configuration of `rpm` and `burst`,
the first-ever `Allow` call for a previously unseen client identifier
returns `true`. -/
def firstCallAlwaysAdmitted : Prop :=
  ∀ (rpm burst : ℤ) (clients : List (String × ClientLimiter))
    (cid : String) (now : ℚ), alookup cid clients = none →
      (RateLimiter.Allow ⟨clients, rpm, burst⟩ cid now).1 = true

/-- C6 counterexample: with `burst = 0` (a legal configuration, e.g.
`RATE_LIMIT_BURST=0`), the brand-new client record is initialized with
zero tokens, so the first-ever call is denied. -/
theorem C6_counterexample : ¬ firstCallAlwaysAdmitted := by
  intro h
  have h1 := h 100 0 [] "c" 0 rfl
  have h2 : (RateLimiter.Allow ⟨[], 100, 0⟩ "c" 0).1 = false := by
    norm_num [RateLimiter.Allow, ClientLimiter.allow, alookup, goTrunc]
  rw [h1] at h2
  exact absurd h2 (by simp)

/-- C6 (amended): for every configuration with `burst ≥ 1`, the
first-ever `Allow` call for a previously unseen client identifier
returns `true` — the new record starts with `burst` tokens and the
request is admitted. -/
theorem C6_first_call_admitted (rpm burst : ℤ)
    (clients : List (String × ClientLimiter)) (cid : String) (now : ℚ)
    (hb : 1 ≤ burst) (hfresh : alookup cid clients = none) :
    (RateLimiter.Allow ⟨clients, rpm, burst⟩ cid now).1 = true := by
  simp only [RateLimiter.Allow, hfresh, ClientLimiter.allow]
  have hz : now - now = 0 := by ring
  rw [hz]
  have ht : goTrunc (0 * (rpm : ℚ) / 60) = 0 := by
    norm_num [goTrunc]
  rw [ht]
  have hcap : ¬ (burst + 0 > burst) := by omega
  rw [if_neg hcap]
  rw [if_pos (by omega : burst + 0 > 0)]

/-- Witness for C6: the first request from unseen client `"c"` under
`rpm = 100, burst = 20` (the default configuration) is admitted. -/
theorem C6_first_call_admitted_witness :
    (RateLimiter.Allow ⟨[], 100, 20⟩ "c" 0).1 = true :=
  C6_first_call_admitted 100 20 [] "c" 0 (by norm_num) rfl

/-! ### Claim C5 — exact burst admission then one-token refill -/

/-- Running the limiter on a one-client table is the per-client run. -/
theorem allowTimes_singleton (rpm burst : ℤ) (cid : String) :
    ∀ (ts : List ℚ) (cl : ClientLimiter),
      RateLimiter.allowTimes ⟨[(cid, cl)], rpm, burst⟩ cid ts
        = ((ClientLimiter.allowTimes cl rpm burst ts).1,
           ⟨[(cid, (ClientLimiter.allowTimes cl rpm burst ts).2)], rpm, burst⟩)
  | [], cl => rfl
  | t :: ts, cl => by
      have hrec := allowTimes_singleton rpm burst cid ts (cl.allow rpm burst t).2
      simp [RateLimiter.allowTimes, RateLimiter.Allow, alookup, astore,
        ClientLimiter.allowTimes, hrec]

/-- The first-ever run for an unseen client behaves as the per-client
run of a bucket created full at the first call instant. -/
theorem allowTimes_fresh (rpm burst : ℤ) (cid : String) (t : ℚ) (ts : List ℚ) :
    (RateLimiter.allowTimes ⟨[], rpm, burst⟩ cid (t :: ts)).1
      = (ClientLimiter.allowTimes ⟨burst, t⟩ rpm burst (t :: ts)).1 := by
  simp only [RateLimiter.allowTimes, RateLimiter.Allow, alookup, astore,
    ClientLimiter.allowTimes, allowTimes_singleton]

/-- Sequential composition of per-client runs. -/
theorem allowTimes_append (rpm burst : ℤ) :
    ∀ (ts1 ts2 : List ℚ) (cl : ClientLimiter),
      ClientLimiter.allowTimes cl rpm burst (ts1 ++ ts2)
        = ((ClientLimiter.allowTimes cl rpm burst ts1).1
             ++ (ClientLimiter.allowTimes
                   (ClientLimiter.allowTimes cl rpm burst ts1).2 rpm burst ts2).1,
           (ClientLimiter.allowTimes
              (ClientLimiter.allowTimes cl rpm burst ts1).2 rpm burst ts2).2)
  | [], ts2, cl => rfl
  | t :: ts1, ts2, cl => by
      have hrec := allowTimes_append rpm burst ts1 ts2 (cl.allow rpm burst t).2
      simp only [List.cons_append, ClientLimiter.allowTimes, List.append_eq,
        hrec]

/-- A zero-elapsed `allow` call with a positive bucket not above `burst`
consumes exactly one token. -/
theorem allow_zero_elapsed_pos {m burst : ℤ} (rpm : ℤ) (t0 : ℚ)
    (hpos : 0 < m) (hle : m ≤ burst) :
    ClientLimiter.allow ⟨m, t0⟩ rpm burst t0 = (true, ⟨m - 1, t0⟩) := by
  simp only [ClientLimiter.allow]
  have hz : t0 - t0 = 0 := by ring
  rw [hz]
  have ht : goTrunc (0 * (rpm : ℚ) / 60) = 0 := by norm_num [goTrunc]
  rw [ht]
  rw [if_neg (by omega : ¬ (m + 0 > burst))]
  rw [if_pos (by omega : m + 0 > 0)]
  norm_num

/-- A zero-elapsed `allow` call with an empty-or-overdrawn bucket is
denied and changes no tokens. -/
theorem allow_zero_elapsed_nonpos {m burst : ℤ} (rpm : ℤ) (t0 : ℚ)
    (hnp : m ≤ 0) (hb : 0 ≤ burst) :
    ClientLimiter.allow ⟨m, t0⟩ rpm burst t0 = (false, ⟨m, t0⟩) := by
  simp only [ClientLimiter.allow]
  have hz : t0 - t0 = 0 := by ring
  rw [hz]
  have ht : goTrunc (0 * (rpm : ℚ) / 60) = 0 := by norm_num [goTrunc]
  rw [ht]
  rw [if_neg (by omega : ¬ (m + 0 > burst))]
  rw [if_neg (by omega : ¬ (m + 0 > 0))]
  norm_num

/-- After exactly `60/rpm` seconds, an empty bucket refills by exactly
one token, which the call immediately consumes. -/
theorem allow_refill_one {rpm burst : ℤ} (t0 : ℚ)
    (hr : 0 < rpm) (hb : 1 ≤ burst) :
    ClientLimiter.allow ⟨0, t0⟩ rpm burst (t0 + 60 / (rpm : ℚ))
      = (true, ⟨0, t0 + 60 / (rpm : ℚ)⟩) := by
  simp only [ClientLimiter.allow]
  have hz : t0 + 60 / (rpm : ℚ) - t0 = 60 / (rpm : ℚ) := by ring
  rw [hz]
  have hrq : (rpm : ℚ) ≠ 0 := by positivity
  have hone : 60 / (rpm : ℚ) * (rpm : ℚ) / 60 = 1 := by field_simp
  rw [hone]
  have ht : goTrunc 1 = 1 := by norm_num [goTrunc]
  rw [ht]
  rw [if_neg (by omega : ¬ ((0 : ℤ) + 1 > burst))]
  rw [if_pos (by omega : (0 : ℤ) + 1 > 0)]
  norm_num

/-- Draining a bucket: `k` zero-elapsed calls on a bucket holding
`m ≥ k` tokens (with `m ≤ burst`) all succeed, leaving `m - k` tokens. -/
theorem allowTimes_drain (rpm burst : ℤ) (t0 : ℚ) :
    ∀ (k : ℕ) (m : ℤ), (k : ℤ) ≤ m → m ≤ burst →
      ClientLimiter.allowTimes ⟨m, t0⟩ rpm burst (List.replicate k t0)
        = (List.replicate k true, ⟨m - k, t0⟩)
  | 0, m, _, _ => by simp [ClientLimiter.allowTimes]
  | k + 1, m, hk, hb => by
      have hstep := allow_zero_elapsed_pos (m := m) rpm t0 (by omega)
        (by omega : m ≤ burst)
      have hrec := allowTimes_drain rpm burst t0 k (m - 1) (by omega)
        (by omega)
      have harith : m - 1 - (k : ℤ) = m - ((k + 1 : ℕ) : ℤ) := by
        push_cast
        ring
      simp only [List.replicate_succ, ClientLimiter.allowTimes, hstep, hrec,
        harith]

/-- Claim C5 as stated: for every client with `burst = N` and `rpm = r`
(`r ≥ 1` so the `60/r` wait is meaningful), starting from the client's
first request, exactly `N` zero-elapsed `Allow` calls succeed, the
`(N+1)`th fails, and after waiting `60/r` seconds exactly one further
call succeeds and the next fails. -/
def burstExactClaim : Prop :=
  ∀ (N r : ℕ), 1 ≤ r → ∀ (t0 : ℚ) (cid : String),
    (RateLimiter.allowTimes ⟨[], (r : ℤ), (N : ℤ)⟩ cid
        (List.replicate (N + 1) t0
          ++ [t0 + 60 / (r : ℚ), t0 + 60 / (r : ℚ)])).1
      = List.replicate N true ++ [false, true, false]

/-- C5 counterexample: with `burst = 0` the claim fails — after waiting
the full `60/rpm` window the refilled token is clipped away by the
`burst` cap, so the promised single success never happens. -/
theorem C5_counterexample : ¬ burstExactClaim := by
  intro h
  have h1 := h 0 60 (by norm_num) 0 "c"
  rw [List.replicate_succ, List.cons_append, allowTimes_fresh] at h1
  norm_num at h1
  have s1 : ClientLimiter.allow ⟨0, 0⟩ 60 0 0 = (false, ⟨0, 0⟩) :=
    allow_zero_elapsed_nonpos 60 0 le_rfl le_rfl
  have s2 : ClientLimiter.allow ⟨0, 0⟩ 60 0 1 = (false, ⟨0, 1⟩) := by
    norm_num [ClientLimiter.allow, goTrunc]
  have s3 : ClientLimiter.allow ⟨0, 1⟩ 60 0 1 = (false, ⟨0, 1⟩) :=
    allow_zero_elapsed_nonpos 60 1 le_rfl le_rfl
  simp only [ClientLimiter.allowTimes, s1, s2, s3] at h1
  simp at h1

/-- C5 (amended): the stated burst/refill pattern holds for every
configuration with `burst = N ≥ 1` and `rpm = r ≥ 1`: from the client's
first request, exactly `N` zero-elapsed calls succeed, the `(N+1)`th
fails, and after `60/r` seconds exactly one more call succeeds and the
next fails. -/
theorem C5_burst_exact (N r : ℕ) (hN : 1 ≤ N) (hr : 1 ≤ r)
    (t0 : ℚ) (cid : String) :
    (RateLimiter.allowTimes ⟨[], (r : ℤ), (N : ℤ)⟩ cid
        (List.replicate (N + 1) t0
          ++ [t0 + 60 / (r : ℚ), t0 + 60 / (r : ℚ)])).1
      = List.replicate N true ++ [false, true, false] := by
  have hrZ : (0 : ℤ) < (r : ℤ) := by exact_mod_cast hr
  have hNZ : (1 : ℤ) ≤ (N : ℤ) := by exact_mod_cast hN
  rw [List.replicate_succ, List.cons_append, allowTimes_fresh]
  rw [← List.cons_append, ← List.replicate_succ, List.replicate_succ',
    List.append_assoc]
  rw [allowTimes_append]
  have hdrain := allowTimes_drain (r : ℤ) (N : ℤ) t0 N (N : ℤ)
    (le_refl _) (le_refl _)
  rw [hdrain]
  have h1 : ClientLimiter.allow ⟨(N : ℤ) - (N : ℤ), t0⟩ (r : ℤ) (N : ℤ) t0
      = (false, ⟨(N : ℤ) - (N : ℤ), t0⟩) := by
    rw [sub_self]
    exact allow_zero_elapsed_nonpos _ _ (le_refl 0) (by omega)
  have h2 : ClientLimiter.allow ⟨(N : ℤ) - (N : ℤ), t0⟩ (r : ℤ) (N : ℤ)
      (t0 + 60 / (r : ℚ)) = (true, ⟨0, t0 + 60 / (r : ℚ)⟩) := by
    rw [sub_self]
    exact allow_refill_one t0 hrZ hNZ
  have h3 : ClientLimiter.allow ⟨0, t0 + 60 / (r : ℚ)⟩ (r : ℤ) (N : ℤ)
      (t0 + 60 / (r : ℚ)) = (false, ⟨0, t0 + 60 / (r : ℚ)⟩) := by
    exact allow_zero_elapsed_nonpos _ _ (le_refl 0) (by omega)
  simp only [List.singleton_append, ClientLimiter.allowTimes, h1, h2, h3]

/-- Witness for C5: `burst = 1, rpm = 60`, client `"c"` starting at time
`0` — calls at `0, 0, 1, 1` yield `allowed, denied, allowed, denied`. -/
theorem C5_burst_exact_witness :
    (RateLimiter.allowTimes ⟨[], ((60 : ℕ) : ℤ), ((1 : ℕ) : ℤ)⟩ "c"
        (List.replicate ((1 : ℕ) + 1) (0 : ℚ)
          ++ [(0 : ℚ) + 60 / ((60 : ℕ) : ℚ), (0 : ℚ) + 60 / ((60 : ℕ) : ℚ)])).1
      = List.replicate (1 : ℕ) true ++ [false, true, false] :=
  C5_burst_exact 1 60 (by norm_num) (by norm_num) 0 "c"

/-! ## Metrics aggregator (`GatewayMetrics`, gateway processor file)

Counters are Go `int64`, modelled as `ℤ`; latency averages are `float64`,
modelled as `ℚ`; timestamps as `ℚ` seconds.  Go maps become association
lists with `mlookup`/`mupdate` (replace-or-append). -/

/-- Association-list lookup for Go map reads. -/
def mlookup {α : Type} (k : String) : List (String × α) → Option α
  | [] => none
  | (k', v) :: rest => if k' = k then some v else mlookup k rest

/-- Association-list store for Go map writes (replace or append). -/
def mupdate {α : Type} (k : String) (v : α) :
    List (String × α) → List (String × α)
  | [] => [(k, v)]
  | (k', v') :: rest =>
      if k' = k then (k, v) :: rest else (k', v') :: mupdate k v rest

theorem mlookup_mupdate_self {α : Type} (k : String) (v : α) :
    ∀ l : List (String × α), mlookup k (mupdate k v l) = some v
  | [] => by simp [mlookup, mupdate]
  | (k', v') :: rest => by
      by_cases h : k' = k
      · simp [mlookup, mupdate, h]
      · simp [mlookup, mupdate, h, mlookup_mupdate_self k v rest]

theorem mlookup_mupdate_ne {α : Type} {k k' : String} (h : k ≠ k') (v : α) :
    ∀ l : List (String × α), mlookup k' (mupdate k v l) = mlookup k' l
  | [] => by simp [mlookup, mupdate, h]
  | (ka, va) :: rest => by
      by_cases ha : ka = k
      · subst ha
        simp [mlookup, mupdate, h]
      · simp only [mupdate, if_neg ha, mlookup]
        by_cases hb : ka = k'
        · simp [hb]
        · simp [hb, mlookup_mupdate_ne h v rest]

theorem mem_mupdate {α : Type} {k : String} {v : α} :
    ∀ {l : List (String × α)} {p : String × α},
      p ∈ mupdate k v l → p = (k, v) ∨ p ∈ l
  | [], p, h => by
      simp [mupdate] at h
      exact Or.inl h
  | (k', v') :: rest, p, h => by
      by_cases hk : k' = k
      · simp only [mupdate, if_pos hk, List.mem_cons] at h
        rcases h with h | h
        · exact Or.inl h
        · exact Or.inr (List.mem_cons_of_mem _ h)
      · simp only [mupdate, if_neg hk, List.mem_cons] at h
        rcases h with h | h
        · exact Or.inr (by simp [h])
        · rcases mem_mupdate h with h2 | h2
          · exact Or.inl h2
          · exact Or.inr (List.mem_cons_of_mem _ h2)

theorem mlookup_mem {α : Type} {k : String} {v : α} :
    ∀ {l : List (String × α)}, mlookup k l = some v → (k, v) ∈ l
  | [], h => by simp [mlookup] at h
  | (k', v') :: rest, h => by
      by_cases hk : k' = k
      · subst hk
        simp [mlookup] at h
        subst h
        exact List.mem_cons_self _ _
      · simp only [mlookup, if_neg hk] at h
        exact List.mem_cons_of_mem _ (mlookup_mem h)

structure ServiceMetrics where
  totalRequests : ℤ
  successRequests : ℤ
  errorRequests : ℤ
  averageLatency : ℚ
  lastRequest : ℚ
  deriving Repr, DecidableEq

structure GatewayMetrics where
  totalRequests : ℤ
  successRequests : ℤ
  errorRequests : ℤ
  averageLatency : ℚ
  serviceMetrics : List (String × ServiceMetrics)
  deriving Repr, DecidableEq

/-- `updateRequestMetrics` (processor file lines 468–490): bump the
global total and exactly one of success/error, then — only if the
service already has an entry — bump that entry the same way and stamp
`LastRequest`. -/
def updateRequestMetrics (m : GatewayMetrics) (service : String)
    (success : Bool) (now : ℚ) : GatewayMetrics :=
  let m1 : GatewayMetrics :=
    { m with
      totalRequests := m.totalRequests + 1
      successRequests :=
        if success then m.successRequests + 1 else m.successRequests
      errorRequests :=
        if success then m.errorRequests else m.errorRequests + 1 }
  match mlookup service m1.serviceMetrics with
  | none => m1
  | some sm =>
      let sm' : ServiceMetrics :=
        { sm with
          totalRequests := sm.totalRequests + 1
          lastRequest := now
          successRequests :=
            if success then sm.successRequests + 1 else sm.successRequests
          errorRequests :=
            if success then sm.errorRequests else sm.errorRequests + 1 }
      { m1 with serviceMetrics := mupdate service sm' m1.serviceMetrics }

/-- `updateLatencyMetrics` (processor file lines 492–513): cumulative
moving average on the global scope and, if present, the service scope.
Counters are untouched. -/
def updateLatencyMetrics (m : GatewayMetrics) (service : String)
    (latencyMs : ℚ) : GatewayMetrics :=
  let avg : ℚ :=
    if m.totalRequests = 1 then latencyMs
    else (m.averageLatency * ((m.totalRequests : ℚ) - 1) + latencyMs)
           / (m.totalRequests : ℚ)
  let m1 : GatewayMetrics := { m with averageLatency := avg }
  match mlookup service m1.serviceMetrics with
  | none => m1
  | some sm =>
      let savg : ℚ :=
        if sm.totalRequests = 1 then latencyMs
        else (sm.averageLatency * ((sm.totalRequests : ℚ) - 1) + latencyMs)
               / (sm.totalRequests : ℚ)
      { m1 with
        serviceMetrics :=
          mupdate service { sm with averageLatency := savg }
            m1.serviceMetrics }

/-- One metrics mutation performed by `ProxyRequest`. -/
inductive MetricsOp
  | request (service : String) (success : Bool) (now : ℚ)
  | latency (service : String) (latencyMs : ℚ)

def applyOp (m : GatewayMetrics) : MetricsOp → GatewayMetrics
  | .request s b t => updateRequestMetrics m s b t
  | .latency s d => updateLatencyMetrics m s d

def applyOps (m : GatewayMetrics) : List MetricsOp → GatewayMetrics
  | [] => m
  | op :: ops => applyOps (applyOp m op) ops

/-- Metrics state at processor start: all counters zero, one zeroed
`ServiceMetrics` entry per registered service (`Start`, lines 73–90). -/
def initMetrics (names : List String) : GatewayMetrics :=
  { totalRequests := 0, successRequests := 0, errorRequests := 0,
    averageLatency := 0,
    serviceMetrics := names.map (fun n => (n, ⟨0, 0, 0, 0, 0⟩)) }

/-- The C4 invariant: `total = success + error` globally and for every
per-service entry. -/
def countersBalanced (m : GatewayMetrics) : Prop :=
  m.totalRequests = m.successRequests + m.errorRequests ∧
  ∀ p ∈ m.serviceMetrics,
    p.2.totalRequests = p.2.successRequests + p.2.errorRequests

theorem updateRequestMetrics_balanced {m : GatewayMetrics}
    (h : countersBalanced m) (service : String) (success : Bool) (now : ℚ) :
    countersBalanced (updateRequestMetrics m service success now) := by
  obtain ⟨hg, hs⟩ := h
  simp only [updateRequestMetrics]
  cases hl : mlookup service m.serviceMetrics with
  | none =>
      refine ⟨?_, ?_⟩
      · cases success <;> simp <;> omega
      · intro p hp
        exact hs p hp
  | some sm =>
      refine ⟨?_, ?_⟩
      · cases success <;> simp <;> omega
      · intro p hp
        rcases mem_mupdate hp with h1 | h1
        · have hsm := hs (service, sm) (mlookup_mem hl)
          rw [h1]
          cases success <;> simp at hsm ⊢ <;> omega
        · exact hs p h1

theorem updateLatencyMetrics_balanced {m : GatewayMetrics}
    (h : countersBalanced m) (service : String) (latencyMs : ℚ) :
    countersBalanced (updateLatencyMetrics m service latencyMs) := by
  obtain ⟨hg, hs⟩ := h
  simp only [updateLatencyMetrics]
  cases hl : mlookup service m.serviceMetrics with
  | none => exact ⟨hg, hs⟩
  | some sm =>
      refine ⟨hg, ?_⟩
      intro p hp
      rcases mem_mupdate hp with h1 | h1
      · have hsm := hs (service, sm) (mlookup_mem hl)
        rw [h1]
        simpa using hsm
      · exact hs p h1

theorem applyOps_balanced {m : GatewayMetrics} (h : countersBalanced m) :
    ∀ ops : List MetricsOp, countersBalanced (applyOps m ops)
  | [] => h
  | op :: ops => by
      have hstep : countersBalanced (applyOp m op) := by
        cases op with
        | request s b t => exact updateRequestMetrics_balanced h s b t
        | latency s d => exact updateLatencyMetrics_balanced h s d
      exact applyOps_balanced hstep ops

theorem initMetrics_balanced (names : List String) :
    countersBalanced (initMetrics names) := by
  refine ⟨by simp [initMetrics], ?_⟩
  intro p hp
  simp only [initMetrics, List.mem_map] at hp
  obtain ⟨n, _, rfl⟩ := hp
  simp

/-- C4: after every completed metrics update — any interleaving of
`updateRequestMetrics` and `updateLatencyMetrics` calls starting from the
processor's initial state — `TotalRequests = SuccessRequests +
ErrorRequests` holds for the global counters and for every per-service
`ServiceMetrics` entry. -/
theorem C4_counters_balanced (names : List String) (ops : List MetricsOp) :
    countersBalanced (applyOps (initMetrics names) ops) :=
  applyOps_balanced (initMetrics_balanced names) ops

/-- Witness for C4: a concrete interleaving over one registered service,
including an error-classified request, keeps the counters balanced. -/
theorem C4_counters_balanced_witness :
    countersBalanced (applyOps (initMetrics ["auth", "analytics"])
      [MetricsOp.request "auth" true 0, MetricsOp.latency "auth" 5,
       MetricsOp.request "auth" false 1, MetricsOp.latency "auth" 7,
       MetricsOp.request "ghost" false 2]) :=
  C4_counters_balanced ["auth", "analytics"]
    [MetricsOp.request "auth" true 0, MetricsOp.latency "auth" 5,
     MetricsOp.request "auth" false 1, MetricsOp.latency "auth" 7,
     MetricsOp.request "ghost" false 2]

/-! ## Proxy engine (`GatewayProcessor.ProxyRequest`, processor file
lines 92–211, and the `Proxy` handler in `gateway_handler.go`)

HTTP effects are oracles in `ProxyEnv`; the gateway state tracks, besides
the metrics object, how many times `httpClient.Do` ran and the header
maps of each outbound request that was built and dispatched. -/

structure ServiceInfo where
  url : String
  healthCheck : String
  timeout : ℤ
  deriving Repr, DecidableEq

structure UpstreamResp where
  statusCode : ℤ
  bodyText : String
  headers : List (String × String)
  deriving Repr, DecidableEq

/-- Oracle for one `ProxyRequest` call's effects: the generated UUID, the
wall-clock start instant, the outcome of reading the inbound body, of
building the outbound request, of `httpClient.Do`, of reading the
response body, and the observed duration. -/
structure ProxyEnv where
  requestID : String
  now : ℚ
  bodyRead : Except String String
  buildErr : Option String
  doResult : Except String UpstreamResp
  respReadErr : Option String
  duration : ℚ
  deriving Repr

structure GatewayState where
  services : List (String × ServiceInfo)
  metrics : GatewayMetrics
  httpCalls : ℕ
  sentHeaders : List (List (String × String))
  deriving Repr, DecidableEq

structure ProxyResponseM where
  statusCode : ℤ
  bodyText : String
  headers : List (String × String)
  duration : ℚ
  deriving Repr, DecidableEq

/-- Stand-in for `startTime.Format(time.RFC3339)`: the model keeps the
stamp abstract as the printed instant; only its injection matters. -/
def rfc3339Format (t : ℚ) : String := toString t

/-- The outbound header map built by `ProxyRequest` lines 139–148: copy
every entry of the caller-supplied map via `req.Header.Set`, then set the
four tracing headers. -/
def outboundHeaders (headers : List (String × String))
    (requestID userID timestampStr service : String) :
    List (String × String) :=
  let copied := headers.foldl (fun acc p => mupdate p.1 p.2 acc) []
  mupdate "X-Service-Name" service
    (mupdate "X-Gateway-Timestamp" timestampStr
      (mupdate "X-User-ID" userID
        (mupdate "X-Request-ID" requestID copied)))

/-- `duration.Milliseconds()` truncates to whole milliseconds before the
`float64` conversion. -/
def durationMs (d : ℚ) : ℚ := ((goTrunc (d * 1000) : ℤ) : ℚ)

/-- `GatewayProcessor.ProxyRequest` (processor file lines 92–211).
Mirrors the source's control flow: an unconditional
`updateRequestMetrics(service, true)` at call start; service lookup; body
read; request build; header assembly; the `httpClient.Do` dispatch; and
the status-code classification `success := 200 <= code < 400` driving an
extra `updateRequestMetrics(service, false)` for error-classified
responses. -/
def ProxyRequest (st : GatewayState) (env : ProxyEnv)
    (service path method : String) (hasBody : Bool)
    (headers : List (String × String)) (userID : String) :
    GatewayState × Except String ProxyResponseM :=
  let m0 := updateRequestMetrics st.metrics service true env.now
  match mlookup service st.services with
  | none =>
      ({ st with metrics := updateRequestMetrics m0 service false env.now },
       .error ("service " ++ service ++ " not found"))
  | some si =>
      match (if hasBody then env.bodyRead else Except.ok "") with
      | .error e =>
          ({ st with
             metrics := updateRequestMetrics m0 service false env.now },
           .error ("failed to read request body: " ++ e))
      | .ok _ =>
          match env.buildErr with
          | some e =>
              ({ st with
                 metrics := updateRequestMetrics m0 service false env.now },
               .error ("failed to create request: " ++ e))
          | none =>
              let outHs := outboundHeaders headers env.requestID userID
                (rfc3339Format env.now) service
              let st1 : GatewayState :=
                { st with
                  metrics := m0
                  httpCalls := st.httpCalls + 1
                  sentHeaders := st.sentHeaders ++ [outHs] }
              match env.doResult with
              | .error e =>
                  ({ st1 with
                     metrics := updateLatencyMetrics
                       (updateRequestMetrics m0 service false env.now)
                       service (durationMs env.duration) },
                   .error ("request failed: " ++ e))
              | .ok resp =>
                  match env.respReadErr with
                  | some e =>
                      ({ st1 with
                         metrics :=
                           updateRequestMetrics m0 service false env.now },
                       .error ("failed to read response: " ++ e))
                  | none =>
                      let success : Bool :=
                        decide (200 ≤ resp.statusCode)
                          && decide (resp.statusCode < 400)
                      let m2 :=
                        if success then m0
                        else updateRequestMetrics m0 service false env.now
                      let m3 := updateLatencyMetrics m2 service
                        (durationMs env.duration)
                      ({ st1 with metrics := m3 },
                       .ok { statusCode := resp.statusCode,
                             bodyText := resp.bodyText,
                             headers := resp.headers,
                             duration := env.duration })

/-! ### Claim C7 — unknown service: typed failure, no network call -/

/-- C7: `ProxyRequest` on a service name absent from the registry fails
with the service-not-found error, never invokes the HTTP client, and
dispatches no outbound request. -/
theorem C7_unknown_service_no_network (st : GatewayState) (env : ProxyEnv)
    (service path method : String) (hasBody : Bool)
    (headers : List (String × String)) (userID : String)
    (h : mlookup service st.services = none) :
    (ProxyRequest st env service path method hasBody headers userID).2
        = .error ("service " ++ service ++ " not found") ∧
    (ProxyRequest st env service path method hasBody headers
        userID).1.httpCalls = st.httpCalls ∧
    (ProxyRequest st env service path method hasBody headers
        userID).1.sentHeaders = st.sentHeaders := by
  simp [ProxyRequest, h]

def si0 : ServiceInfo :=
  { url := "http://localhost:8081",
    healthCheck := "http://localhost:8081/health", timeout := 5 }

def env500 : ProxyEnv :=
  { requestID := "rid-1", now := 0, bodyRead := Except.ok "",
    buildErr := none,
    doResult := Except.ok { statusCode := 500, bodyText := "boom",
                            headers := [] },
    respReadErr := none, duration := 1 }

def st0 : GatewayState :=
  { services := [("auth", si0)], metrics := initMetrics ["auth"],
    httpCalls := 0, sentHeaders := [] }

/-- Witness for C7: proxying to unregistered `"ghost"` from a one-service
registry fails with the not-found error and leaves the HTTP-call counter
and the dispatched-request log untouched. -/
theorem C7_unknown_service_no_network_witness :
    (ProxyRequest st0 env500 "ghost" "/x" "GET" false [] "u1").2
        = .error ("service " ++ "ghost" ++ " not found") ∧
    (ProxyRequest st0 env500 "ghost" "/x" "GET" false [] "u1").1.httpCalls
        = st0.httpCalls ∧
    (ProxyRequest st0 env500 "ghost" "/x" "GET" false [] "u1").1.sentHeaders
        = st0.sentHeaders :=
  C7_unknown_service_no_network st0 env500 "ghost" "/x" "GET" false [] "u1"
    (by simp [st0, si0, mlookup])

/-! ### Claim C1 — which counters a status code moves -/

/-- The three request counters of a `ServiceMetrics` entry. -/
def smCounters (sm : ServiceMetrics) : ℤ × ℤ × ℤ :=
  (sm.totalRequests, sm.successRequests, sm.errorRequests)

theorem updateRequestMetrics_total (m : GatewayMetrics) (s : String)
    (b : Bool) (t : ℚ) :
    (updateRequestMetrics m s b t).totalRequests = m.totalRequests + 1 := by
  cases hl : mlookup s m.serviceMetrics <;> simp [updateRequestMetrics, hl]

theorem updateRequestMetrics_success (m : GatewayMetrics) (s : String)
    (b : Bool) (t : ℚ) :
    (updateRequestMetrics m s b t).successRequests
      = m.successRequests + (if b then 1 else 0) := by
  cases hl : mlookup s m.serviceMetrics <;>
    cases b <;> simp [updateRequestMetrics, hl]

theorem updateRequestMetrics_error (m : GatewayMetrics) (s : String)
    (b : Bool) (t : ℚ) :
    (updateRequestMetrics m s b t).errorRequests
      = m.errorRequests + (if b then 0 else 1) := by
  cases hl : mlookup s m.serviceMetrics <;>
    cases b <;> simp [updateRequestMetrics, hl]

theorem updateRequestMetrics_service {m : GatewayMetrics}
    {sm : ServiceMetrics} (s : String) (b : Bool) (t : ℚ)
    (h : mlookup s m.serviceMetrics = some sm) :
    mlookup s (updateRequestMetrics m s b t).serviceMetrics
      = some { sm with
               totalRequests := sm.totalRequests + 1
               lastRequest := t
               successRequests :=
                 if b then sm.successRequests + 1 else sm.successRequests
               errorRequests :=
                 if b then sm.errorRequests else sm.errorRequests + 1 } := by
  simp [updateRequestMetrics, h, mlookup_mupdate_self]

theorem updateLatencyMetrics_total (m : GatewayMetrics) (s : String)
    (d : ℚ) :
    (updateLatencyMetrics m s d).totalRequests = m.totalRequests := by
  cases hl : mlookup s m.serviceMetrics <;> simp [updateLatencyMetrics, hl]

theorem updateLatencyMetrics_success (m : GatewayMetrics) (s : String)
    (d : ℚ) :
    (updateLatencyMetrics m s d).successRequests = m.successRequests := by
  cases hl : mlookup s m.serviceMetrics <;> simp [updateLatencyMetrics, hl]

theorem updateLatencyMetrics_error (m : GatewayMetrics) (s : String)
    (d : ℚ) :
    (updateLatencyMetrics m s d).errorRequests = m.errorRequests := by
  cases hl : mlookup s m.serviceMetrics <;> simp [updateLatencyMetrics, hl]

theorem updateLatencyMetrics_service_counters (m : GatewayMetrics)
    (s : String) (d : ℚ) (name : String) :
    (mlookup name (updateLatencyMetrics m s d).serviceMetrics).map smCounters
      = (mlookup name m.serviceMetrics).map smCounters := by
  cases hl : mlookup s m.serviceMetrics with
  | none => simp [updateLatencyMetrics, hl]
  | some sm =>
      by_cases hn : s = name
      · subst hn
        simp [updateLatencyMetrics, hl, mlookup_mupdate_self, smCounters]
      · simp [updateLatencyMetrics, hl, mlookup_mupdate_ne hn]

/-- C1: what `ProxyRequest` actually does to the request counters when
the upstream responds with status `s`.  The error counters (global and
per-service) increase by exactly one iff `s ∉ [200, 400)`, as the claim
says; but the success counters increase by exactly one **unconditionally**
— the unconditional `updateRequestMetrics(service, true)` at call start
(line 97) records every call as a success before the outcome is known, so
an error-classified response bumps success and error alike and total by
two.  This contradicts the claim's (and the spec's) success-counter
direction. -/
theorem C1_response_counter_deltas (st : GatewayState) (env : ProxyEnv)
    (service path method : String) (hasBody : Bool)
    (headers : List (String × String)) (userID : String)
    (si : ServiceInfo) (resp : UpstreamResp) (sm : ServiceMetrics)
    (bodyStr : String)
    (hsvc : mlookup service st.services = some si)
    (hbody : (if hasBody then env.bodyRead else Except.ok "")
      = Except.ok bodyStr)
    (hbuild : env.buildErr = none)
    (hdo : env.doResult = Except.ok resp)
    (hread : env.respReadErr = none)
    (hsm : mlookup service st.metrics.serviceMetrics = some sm) :
    (ProxyRequest st env service path method hasBody headers
        userID).1.metrics.successRequests
      = st.metrics.successRequests + 1 ∧
    (ProxyRequest st env service path method hasBody headers
        userID).1.metrics.errorRequests
      = st.metrics.errorRequests
        + (if 200 ≤ resp.statusCode ∧ resp.statusCode < 400 then 0 else 1) ∧
    (ProxyRequest st env service path method hasBody headers
        userID).1.metrics.totalRequests
      = st.metrics.totalRequests
        + (if 200 ≤ resp.statusCode ∧ resp.statusCode < 400 then 1 else 2) ∧
    (mlookup service (ProxyRequest st env service path method hasBody
        headers userID).1.metrics.serviceMetrics).map smCounters
      = some (sm.totalRequests
                + (if 200 ≤ resp.statusCode ∧ resp.statusCode < 400
                   then 1 else 2),
              sm.successRequests + 1,
              sm.errorRequests
                + (if 200 ≤ resp.statusCode ∧ resp.statusCode < 400
                   then 0 else 1)) := by
  simp only [ProxyRequest, hsvc, hbody, hbuild, hdo, hread]
  by_cases hok : 200 ≤ resp.statusCode ∧ resp.statusCode < 400
  · have hb : (decide (200 ≤ resp.statusCode)
        && decide (resp.statusCode < 400)) = true := by
      simp [hok.1, hok.2]
    simp only [hb, if_true, if_pos hok]
    refine ⟨?_, ?_, ?_, ?_⟩
    · rw [updateLatencyMetrics_success, updateRequestMetrics_success]
      simp
    · rw [updateLatencyMetrics_error, updateRequestMetrics_error]
      simp
    · rw [updateLatencyMetrics_total, updateRequestMetrics_total]
    · rw [updateLatencyMetrics_service_counters]
      rw [updateRequestMetrics_service service true env.now hsm]
      simp [smCounters]
  · have hb : (decide (200 ≤ resp.statusCode)
        && decide (resp.statusCode < 400)) = false := by
      rcases (not_and_or.mp hok) with h | h <;> simp [h]
    simp only [hb, Bool.false_eq_true, if_false, if_neg hok]
    have hsm0 := updateRequestMetrics_service service true env.now hsm
    refine ⟨?_, ?_, ?_, ?_⟩
    · rw [updateLatencyMetrics_success, updateRequestMetrics_success,
        updateRequestMetrics_success]
      simp
    · rw [updateLatencyMetrics_error, updateRequestMetrics_error,
        updateRequestMetrics_error]
      simp
    · rw [updateLatencyMetrics_total, updateRequestMetrics_total,
        updateRequestMetrics_total]
      omega
    · rw [updateLatencyMetrics_service_counters]
      rw [updateRequestMetrics_service service false env.now hsm0]
      simp [smCounters]
      omega

/-- Witness for C1 at the failing input: upstream status `500` on a
zero-counter state — the success counter still rises to `1`, the error
counter rises to `1`, and total rises to `2`, globally and for the
service entry. -/
theorem C1_response_counter_deltas_witness :
    (ProxyRequest st0 env500 "auth" "/login" "POST" false []
        "u1").1.metrics.successRequests = 0 + 1 ∧
    (ProxyRequest st0 env500 "auth" "/login" "POST" false []
        "u1").1.metrics.errorRequests = 0 + 1 ∧
    (ProxyRequest st0 env500 "auth" "/login" "POST" false []
        "u1").1.metrics.totalRequests = 0 + 2 ∧
    (mlookup "auth" (ProxyRequest st0 env500 "auth" "/login" "POST" false
        [] "u1").1.metrics.serviceMetrics).map smCounters
      = some (0 + 2, 0 + 1, 0 + 1) := by
  have h := C1_response_counter_deltas st0 env500 "auth" "/login" "POST"
    false [] "u1" si0 { statusCode := 500, bodyText := "boom", headers := [] }
    ⟨0, 0, 0, 0, 0⟩ ""
    (by simp [st0, si0, mlookup]) (by simp [env500]) (by simp [env500])
    (by simp [env500]) (by simp [env500])
    (by simp [st0, initMetrics, mlookup])
  simpa [st0, initMetrics] using h

/-! ### Claim C3 — outbound header assembly

`isSystemHeader` from `gateway_handler.go` lines 168–182.  Go's
`strings.ToLower` is modelled for ASCII header names by `lowerStr`. -/

def lowerChar (c : Char) : Char :=
  if 'A' ≤ c ∧ c ≤ 'Z' then Char.ofNat (c.toNat + 32) else c

def lowerStr (s : String) : String := String.mk (s.data.map lowerChar)

/-- The handler's deny-list (`systemHeaders` slice) — note it contains
`"Authorization"`. -/
def systemHeaders : List String :=
  ["Authorization", "Content-Length", "Content-Type", "Host",
   "User-Agent", "Accept-Encoding", "Connection"]

/-- `isSystemHeader`: case-insensitive membership in the deny-list. -/
def isSystemHeader (header : String) : Bool :=
  systemHeaders.any (fun sys => lowerStr sys == lowerStr header)

/-- The `Proxy` handler's header extraction (`gateway_handler.go` lines
42–47): keep every caller header that is not a system header. -/
def extractHeaders (caller : List (String × String)) :
    List (String × String) :=
  caller.filter (fun p => !isSystemHeader p.1)

/-- The full outbound header map for one proxied call: handler filter
composed with `ProxyRequest`'s header assembly. -/
def gatewayOutbound (caller : List (String × String))
    (reqID userID ts svc : String) : List (String × String) :=
  outboundHeaders (extractHeaders caller) reqID userID ts svc

/-- The outbound header map the spec's words describe: caller headers
minus the deny-list **but with `Authorization` explicitly forwarded**,
plus the four tracing headers.  (Definition follows the claim, for
comparison with `gatewayOutbound`, which follows the code.) -/
def specExpectedHeaders (caller : List (String × String))
    (reqID userID ts svc : String) : List (String × String) :=
  let kept := caller.filter
    (fun p => (lowerStr p.1 == lowerStr "Authorization")
      || !isSystemHeader p.1)
  let copied := kept.foldl (fun acc p => mupdate p.1 p.2 acc) []
  mupdate "X-Service-Name" svc
    (mupdate "X-Gateway-Timestamp" ts
      (mupdate "X-User-ID" userID
        (mupdate "X-Request-ID" reqID copied)))

/-- Claim C3 as stated: every proxied call's outbound headers are the
caller's minus the deny-list with `Authorization` forwarded, plus the
four injected tracing headers. -/
def headerForwardingClaim : Prop :=
  ∀ (caller : List (String × String)) (reqID userID ts svc : String),
    gatewayOutbound caller reqID userID ts svc
      = specExpectedHeaders caller reqID userID ts svc

/-- C3 counterexample: a caller sending only
`Authorization: Bearer tok` — the deny-list contains `Authorization`, so
the gateway strips it, while the claim expects it forwarded. -/
theorem C3_counterexample : ¬ headerForwardingClaim := by
  intro h
  exact absurd (h [("Authorization", "Bearer tok")] "rid" "u1" "ts0" "auth")
    (by decide)

theorem mlookup_filter {α : Type} (pred : String → Bool) (k : String) :
    ∀ l : List (String × α),
      mlookup k (l.filter (fun p => pred p.1))
        = if pred k then mlookup k l else none
  | [] => by simp [mlookup]
  | (k', v) :: rest => by
      by_cases hk : k' = k
      · subst hk
        cases hp : pred k'
        · simp [List.filter_cons, hp, mlookup_filter pred k' rest]
        · simp [List.filter_cons, hp, mlookup]
      · cases hp : pred k' <;>
          simp [List.filter_cons, hp, mlookup, hk,
            mlookup_filter pred k rest]

theorem mlookup_fold_notmem {α : Type} (k : String) :
    ∀ (entries : List (String × α)) (acc : List (String × α)),
      k ∉ entries.map Prod.fst →
      mlookup k (entries.foldl (fun acc p => mupdate p.1 p.2 acc) acc)
        = mlookup k acc
  | [], acc, _ => rfl
  | (k', v) :: rest, acc, h => by
      simp only [List.map_cons, List.mem_cons] at h
      push_neg at h
      rw [List.foldl_cons]
      rw [mlookup_fold_notmem k rest _ h.2]
      exact mlookup_mupdate_ne (fun hc => h.1 hc.symm) v acc

theorem mlookup_fold_copy {α : Type} (k : String) :
    ∀ (entries : List (String × α)) (acc : List (String × α)),
      (entries.map Prod.fst).Nodup →
      mlookup k (entries.foldl (fun acc p => mupdate p.1 p.2 acc) acc)
        = match mlookup k entries with
          | some v => some v
          | none => mlookup k acc
  | [], acc, _ => by simp [mlookup]
  | (k', v) :: rest, acc, h => by
      simp only [List.map_cons, List.nodup_cons] at h
      rw [List.foldl_cons]
      by_cases hk : k' = k
      · subst hk
        rw [mlookup_fold_notmem k' rest _ h.1]
        simp [mlookup, mlookup_mupdate_self]
      · rw [mlookup_fold_copy k rest _ h.2]
        simp only [mlookup, if_neg hk]
        cases hrest : mlookup k rest
        · exact mlookup_mupdate_ne hk v acc
        · simp

/-- C3 (amended): for every proxied call, the outbound request's headers
are the caller's headers minus the deny-list of transport-managed
headers — a list that **includes `Authorization`, so `Authorization` is
stripped, not forwarded** — overridden by exactly the four injected
tracing headers (correlation id, caller identity, gateway timestamp,
resolved service name); and `ProxyRequest` dispatches exactly this header
map on the wire. -/
theorem C3_outbound_headers (st : GatewayState) (env : ProxyEnv)
    (service path method : String) (hasBody : Bool)
    (caller : List (String × String)) (userID : String)
    (si : ServiceInfo) (bodyStr : String)
    (hnodup : (caller.map Prod.fst).Nodup)
    (hsvc : mlookup service st.services = some si)
    (hbody : (if hasBody then env.bodyRead else Except.ok "")
      = Except.ok bodyStr)
    (hbuild : env.buildErr = none) :
    (ProxyRequest st env service path method hasBody
        (extractHeaders caller) userID).1.sentHeaders
      = st.sentHeaders
        ++ [gatewayOutbound caller env.requestID userID
              (rfc3339Format env.now) service] ∧
    ∀ k : String,
      mlookup k (gatewayOutbound caller env.requestID userID
          (rfc3339Format env.now) service)
        = if k = "X-Service-Name" then some service
          else if k = "X-Gateway-Timestamp" then some (rfc3339Format env.now)
          else if k = "X-User-ID" then some userID
          else if k = "X-Request-ID" then some env.requestID
          else if isSystemHeader k then none
          else mlookup k caller := by
  constructor
  · simp only [ProxyRequest, hsvc, hbody, hbuild, gatewayOutbound]
    cases env.doResult with
    | error e => simp
    | ok resp =>
        cases hr : env.respReadErr with
        | none => simp
        | some e => simp
  · intro k
    have hkeys : ((extractHeaders caller).map Prod.fst).Nodup := by
      have hsub : List.Sublist ((extractHeaders caller).map Prod.fst)
          (caller.map Prod.fst) :=
        (List.filter_sublist caller).map Prod.fst
      exact List.Nodup.sublist hsub hnodup
    simp only [gatewayOutbound, outboundHeaders]
    by_cases h1 : k = "X-Service-Name"
    · subst h1
      simp [mlookup_mupdate_self]
    · rw [mlookup_mupdate_ne (fun hc => h1 hc.symm) _ _, if_neg h1]
      by_cases h2 : k = "X-Gateway-Timestamp"
      · subst h2
        simp [mlookup_mupdate_self]
      · rw [mlookup_mupdate_ne (fun hc => h2 hc.symm) _ _, if_neg h2]
        by_cases h3 : k = "X-User-ID"
        · subst h3
          simp [mlookup_mupdate_self]
        · rw [mlookup_mupdate_ne (fun hc => h3 hc.symm) _ _, if_neg h3]
          by_cases h4 : k = "X-Request-ID"
          · subst h4
            simp [mlookup_mupdate_self]
          · rw [mlookup_mupdate_ne (fun hc => h4 hc.symm) _ _, if_neg h4]
            rw [mlookup_fold_copy k (extractHeaders caller) [] hkeys]
            rw [show extractHeaders caller
                = caller.filter (fun p => (fun s => !isSystemHeader s) p.1)
              from rfl]
            rw [mlookup_filter (fun s => !isSystemHeader s) k caller]
            cases hs : isSystemHeader k
            · simp only [Bool.not_false, if_true, Bool.false_eq_true,
                if_false]
              cases mlookup k caller <;> rfl
            · simp [mlookup]

def caller0 : List (String × String) :=
  [("Accept", "application/json"), ("Authorization", "Bearer tok"),
   ("X-Trace", "7")]

def stC3 : GatewayState :=
  { services := [("auth", si0)], metrics := initMetrics ["auth"],
    httpCalls := 3, sentHeaders := [] }

/-- Witness for C3: a concrete call — the plain `Accept` header passes
through, `Authorization` is stripped, the correlation id is injected, and
the dispatched header map is recorded. -/
theorem C3_outbound_headers_witness :
    (ProxyRequest stC3 env500 "auth" "/p" "GET" false
        (extractHeaders caller0) "u1").1.sentHeaders
      = stC3.sentHeaders
        ++ [gatewayOutbound caller0 env500.requestID "u1"
              (rfc3339Format env500.now) "auth"] ∧
    mlookup "Accept" (gatewayOutbound caller0 env500.requestID "u1"
        (rfc3339Format env500.now) "auth") = some "application/json" ∧
    mlookup "Authorization" (gatewayOutbound caller0 env500.requestID "u1"
        (rfc3339Format env500.now) "auth") = none ∧
    mlookup "X-Request-ID" (gatewayOutbound caller0 env500.requestID "u1"
        (rfc3339Format env500.now) "auth") = some env500.requestID := by
  have h := C3_outbound_headers stC3 env500 "auth" "/p" "GET" false
    caller0 "u1" si0 "" (by decide) (by simp [stC3, si0, mlookup])
    (by simp [env500]) (by simp [env500])
  refine ⟨h.1, ?_, ?_, ?_⟩
  · rw [h.2 "Accept"]
    decide
  · rw [h.2 "Authorization"]
    decide
  · rw [h.2 "X-Request-ID"]
    decide

/-! ## Health monitor (`performHealthCheck` lines 225–281,
`checkAllServices` lines 390–426)

The HTTP probe is an oracle per service: `buildErr` is the
`http.NewRequestWithContext` outcome, `doResult` the transport outcome
(error text or status code). -/

structure HealthCheckResult where
  service : String
  status : String
  url : String
  duration : ℚ
  error : String
  timestamp : ℚ
  deriving Repr, DecidableEq

structure HealthEnv where
  buildErr : Option String
  doResult : Except String ℤ
  startTime : ℚ
  duration : ℚ

/-- `performHealthCheck`: a request-build failure returns an error; any
transport error or non-200 status is swallowed into the result's
`status`/`error` fields; the result is stored by the caller's table
update (modelled in `checkAllServices`). -/
def performHealthCheck (service : String) (si : ServiceInfo)
    (env : HealthEnv) : Except String HealthCheckResult :=
  match env.buildErr with
  | some e => .error ("failed to create health check request: " ++ e)
  | none =>
      let base : HealthCheckResult :=
        { service := service, status := "", url := si.healthCheck,
          duration := env.duration, error := "",
          timestamp := env.startTime }
      match env.doResult with
      | .error e => .ok { base with status := "unhealthy", error := e }
      | .ok code =>
          if code = 200 then .ok { base with status := "healthy" }
          else .ok { base with
                     status := "unhealthy"
                     error := "status code: " ++ toString code }

/-- `checkAllServices`: probe every registered service (the concurrent
fan-out linearized; each probe writes only its own key), storing each
successful probe's result and discarding the returned values. -/
def checkAllServices (envs : String → HealthEnv) :
    List (String × ServiceInfo) → List (String × HealthCheckResult) →
      List (String × HealthCheckResult)
  | [], table => table
  | p :: rest, table =>
      match performHealthCheck p.1 p.2 (envs p.1) with
      | .ok r => checkAllServices envs rest (mupdate p.1 r table)
      | .error _ => checkAllServices envs rest table

/-- Claim C8 as stated: no probe ever returns an error in place of a
result. -/
def probeNeverErrorsClaim : Prop :=
  ∀ (service : String) (si : ServiceInfo) (env : HealthEnv),
    ∃ r, performHealthCheck service si env = .ok r

def envBad : HealthEnv :=
  { buildErr := some "parse error", doResult := Except.ok 200,
    startTime := 0, duration := 0 }

/-- C8 counterexample: when building the probe request fails (malformed
health-check URL), `performHealthCheck` returns a non-nil error instead
of a result. -/
theorem C8_counterexample : ¬ probeNeverErrorsClaim := by
  intro h
  obtain ⟨r, hr⟩ := h "auth" si0 envBad
  simp [performHealthCheck, envBad] at hr

theorem checkAllServices_notmem (envs : String → HealthEnv) :
    ∀ (services : List (String × ServiceInfo))
      (table : List (String × HealthCheckResult)) (k : String),
      k ∉ services.map Prod.fst →
      mlookup k (checkAllServices envs services table) = mlookup k table
  | [], _, _, _ => rfl
  | p :: rest, table, k, h => by
      simp only [List.map_cons, List.mem_cons] at h
      push_neg at h
      simp only [checkAllServices]
      cases performHealthCheck p.1 p.2 (envs p.1) with
      | error e => exact checkAllServices_notmem envs rest table k h.2
      | ok r =>
          rw [checkAllServices_notmem envs rest _ k h.2]
          exact mlookup_mupdate_ne (fun hc => h.1 hc.symm) r table

theorem checkAllServices_covers (envs : String → HealthEnv) :
    ∀ (services : List (String × ServiceInfo))
      (table : List (String × HealthCheckResult)),
      (services.map Prod.fst).Nodup →
      ∀ p ∈ services, (envs p.1).buildErr = none →
        ∃ r, performHealthCheck p.1 p.2 (envs p.1) = .ok r ∧
          mlookup p.1 (checkAllServices envs services table) = some r
  | [], _, _, p, hp, _ => by simp at hp
  | q :: rest, table, hnodup, p, hp, henv => by
      simp only [List.map_cons, List.nodup_cons] at hnodup
      rcases List.mem_cons.mp hp with hq | hrest
      · subst hq
        cases hres : performHealthCheck p.1 p.2 (envs p.1) with
        | error e =>
            simp only [performHealthCheck, henv] at hres
            cases hdo : (envs p.1).doResult with
            | error e2 => rw [hdo] at hres; simp at hres
            | ok code =>
                rw [hdo] at hres
                by_cases hc : code = 200 <;> simp [hc] at hres
        | ok r =>
            refine ⟨r, rfl, ?_⟩
            simp only [checkAllServices, hres]
            rw [checkAllServices_notmem envs rest _ p.1 hnodup.1]
            exact mlookup_mupdate_self p.1 r table
      · cases hres : performHealthCheck q.1 q.2 (envs q.1) with
        | error e =>
            simp only [checkAllServices, hres]
            exact checkAllServices_covers envs rest table hnodup.2 p
              hrest henv
        | ok r =>
            simp only [checkAllServices, hres]
            exact checkAllServices_covers envs rest (mupdate q.1 r table)
              hnodup.2 p hrest henv

/-- C8 (amended): whenever the probe request can be built, a per-probe
failure — transport error or non-200 status — is recorded in the
returned result's `status`/`error` fields (status `"unhealthy"` with the
cause) rather than propagated as an error, and `status = "healthy"` iff
the upstream answered exactly 200; and in the sweep every service whose
request can be built receives its own probe's result in the health
table, no matter how any other service's probe fails (including
build-failure probes, whose error the sweep discards). -/
theorem C8_probe_failures_recorded :
    (∀ (service : String) (si : ServiceInfo) (env : HealthEnv),
      env.buildErr = none →
      ∃ r, performHealthCheck service si env = .ok r ∧
        r.service = service ∧ r.url = si.healthCheck ∧
        (r.status = "healthy" ↔ env.doResult = Except.ok 200) ∧
        (r.status = "healthy" ∨ r.status = "unhealthy") ∧
        (match env.doResult with
         | .error e => r.error = e
         | .ok code =>
             r.error = if code = 200 then ""
               else "status code: " ++ toString code)) ∧
    (∀ (services : List (String × ServiceInfo))
       (envs : String → HealthEnv)
       (table : List (String × HealthCheckResult)),
      (services.map Prod.fst).Nodup →
      ∀ p ∈ services, (envs p.1).buildErr = none →
        ∃ r, performHealthCheck p.1 p.2 (envs p.1) = .ok r ∧
          mlookup p.1 (checkAllServices envs services table) = some r) := by
  constructor
  · intro service si env henv
    simp only [performHealthCheck, henv]
    cases hdo : env.doResult with
    | error e =>
        refine ⟨_, rfl, rfl, rfl, ?_, ?_, ?_⟩ <;> simp
    | ok code =>
        by_cases hc : code = 200
        · subst hc
          refine ⟨_, rfl, rfl, rfl, ?_, ?_, ?_⟩ <;> simp
        · refine ⟨⟨service, "unhealthy", si.healthCheck, env.duration,
              "status code: " ++ toString code, env.startTime⟩,
              ?_, rfl, rfl, ?_, ?_, ?_⟩
          · simp [hc]
          · simp [hc]
          · simp
          · simp [hc]
  · exact fun services envs table hnodup p hp henv =>
      checkAllServices_covers envs services table hnodup p hp henv

def envOk : HealthEnv :=
  { buildErr := none, doResult := Except.ok 200, startTime := 0,
    duration := 1 }

def envDown : HealthEnv :=
  { buildErr := none, doResult := Except.error "connection refused",
    startTime := 0, duration := 1 }

/-- Witness for C8: a transport failure is recorded as an unhealthy
result rather than an error, and in a sweep where service `"bad"` has a
build-failing probe, service `"auth"` still gets its own healthy result
into the table. -/
theorem C8_probe_failures_recorded_witness :
    (∃ r, performHealthCheck "auth" si0 envDown = .ok r ∧
       r.service = "auth" ∧ r.url = si0.healthCheck ∧
       (r.status = "healthy" ↔ envDown.doResult = Except.ok 200) ∧
       (r.status = "healthy" ∨ r.status = "unhealthy") ∧
       (match envDown.doResult with
        | .error e => r.error = e
        | .ok code =>
            r.error = if code = 200 then ""
              else "status code: " ++ toString code)) ∧
    (∃ r, performHealthCheck "auth" si0
        ((fun s => if s = "auth" then envOk else envBad) "auth") = .ok r ∧
       mlookup "auth" (checkAllServices
         (fun s => if s = "auth" then envOk else envBad)
         [("auth", si0), ("bad", si0)] []) = some r) := by
  constructor
  · exact C8_probe_failures_recorded.1 "auth" si0 envDown rfl
  · exact C8_probe_failures_recorded.2 [("auth", si0), ("bad", si0)]
      (fun s => if s = "auth" then envOk else envBad) []
      (by decide) ("auth", si0) (by decide) (by decide)

/-! ## Auth validator (`validateTokenViaRedis`,
`middleware` auth file lines 266–346)

The publish and the single blocking `XReadGroup` call are oracles.  A
read either errors at the transport level, blocks the full 5-second
window and returns `redis.Nil`, or returns a batch of candidate messages
after `t < 5` seconds.  The model records the elapsed wall-clock time of
the wait and which message ids were acknowledged. -/

structure User where
  id : String
  email : String
  role : String
  deriving Repr, DecidableEq

structure AuthValidationResponse where
  requestID : String
  valid : Bool
  user : Option User
  error : String
  deriving Repr, DecidableEq

inductive MsgContent
  | noData
  | badJson (raw : String)
  | resp (r : AuthValidationResponse)
  deriving Repr, DecidableEq

structure StreamMsg where
  id : String
  content : MsgContent
  deriving Repr, DecidableEq

inductive ReadOutcome
  | transportError (t : ℚ) (e : String)
  | timeout
  | messages (t : ℚ) (msgs : List StreamMsg)
  deriving Repr, DecidableEq

inductive AuthFailure
  | publishFailed (e : String)
  | timeoutWaiting
  | readFailed (e : String)
  | invalidToken (e : String)
  | noResponse
  deriving Repr, DecidableEq

structure ValidateOutcome where
  result : Except AuthFailure (Option User)
  elapsed : ℚ
  acked : List String

/-- The configured blocking-read window: `timeout := 5 * time.Second`. -/
def authWaitWindow : ℚ := 5

/-- The message-scanning loop (auth file lines 320–343): skip messages
with no `"data"` string or unparsable JSON, and return the first parsed
response whose `RequestID` matches. -/
def findResponse (requestID : String) :
    List StreamMsg → Option (String × AuthValidationResponse)
  | [] => none
  | m :: ms =>
      match m.content with
      | .resp r =>
          if r.requestID = requestID then some (m.id, r)
          else findResponse requestID ms
      | _ => findResponse requestID ms

/-- `validateTokenViaRedis`: publish the request, then do ONE blocking
read; on a batch, scan for the matching response (ack it, check
validity); if the batch held no match, return the no-response error
immediately — the read is not retried. -/
def validateTokenViaRedis (requestID : String) (publishErr : Option String)
    (read : ReadOutcome) : ValidateOutcome :=
  match publishErr with
  | some e => { result := .error (.publishFailed e), elapsed := 0,
                acked := [] }
  | none =>
      match read with
      | .transportError t e =>
          { result := .error (.readFailed e), elapsed := t, acked := [] }
      | .timeout =>
          { result := .error .timeoutWaiting, elapsed := authWaitWindow,
            acked := [] }
      | .messages t msgs =>
          match findResponse requestID msgs with
          | some (mid, r) =>
              if r.valid then
                { result := .ok r.user, elapsed := t, acked := [mid] }
              else
                { result := .error (.invalidToken r.error), elapsed := t,
                  acked := [mid] }
          | none =>
              { result := .error .noResponse, elapsed := t, acked := [] }

/-- Whether a read outcome delivers no message whose `RequestID` matches
(the claim's premise; transport errors are out of its scope). -/
def noMatchingResponse (requestID : String) : ReadOutcome → Prop
  | .transportError _ _ => False
  | .timeout => True
  | .messages _ msgs => findResponse requestID msgs = none

/-- Claim C2 as stated: whenever no correlated response arrives, the wait
runs the full window — `Validate` fails with the timeout error after
exactly 5 seconds, acknowledging nothing, even if non-matching messages
arrived earlier. -/
def authWaitClaim : Prop :=
  ∀ (requestID : String) (read : ReadOutcome),
    noMatchingResponse requestID read →
      (validateTokenViaRedis requestID none read).result
          = .error .timeoutWaiting ∧
      (validateTokenViaRedis requestID none read).elapsed = authWaitWindow ∧
      (validateTokenViaRedis requestID none read).acked = []

/-- C2 counterexample: a single non-matching response arriving after 1
second is not returned and not acknowledged — but it ends the single
blocking read early: `Validate` fails immediately (elapsed 1 s, not 5)
with the no-response error, not the timeout error. -/
theorem C2_counterexample : ¬ authWaitClaim := by
  intro h
  have h1 := h "rid" (.messages 1
    [⟨"m1", .resp ⟨"other", true, none, ""⟩⟩])
    (by simp [noMatchingResponse, findResponse])
  have h2 := h1.2.1
  have h3 : (validateTokenViaRedis "rid" none (.messages 1
      [⟨"m1", .resp ⟨"other", true, none, ""⟩⟩])).elapsed = 1 := by
    simp [validateTokenViaRedis, findResponse]
  rw [h3] at h2
  norm_num [authWaitWindow] at h2

theorem findResponse_requestID (requestID : String) :
    ∀ (msgs : List StreamMsg) (mid : String) (r : AuthValidationResponse),
      findResponse requestID msgs = some (mid, r) →
      r.requestID = requestID
  | [], _, _, h => by simp [findResponse] at h
  | m :: ms, mid, r, h => by
      cases hc : m.content with
      | resp r2 =>
          simp only [findResponse, hc] at h
          by_cases hr : r2.requestID = requestID
          · rw [if_pos hr] at h
            simp only [Option.some.injEq, Prod.mk.injEq] at h
            rw [← h.2]
            exact hr
          · rw [if_neg hr] at h
            exact findResponse_requestID requestID ms mid r h
      | noData =>
          simp only [findResponse, hc] at h
          exact findResponse_requestID requestID ms mid r h
      | badJson raw =>
          simp only [findResponse, hc] at h
          exact findResponse_requestID requestID ms mid r h

/-- C2 (amended): with the publish succeeding, (i) a read that blocks the
whole window with no message at all fails with the timeout error after
exactly the 5-second window, acknowledging nothing; (ii) a batch with no
matching `RequestID` is never returned as the answer and is left
unacknowledged — but it ends the single blocking read early: `Validate`
fails immediately at the batch's arrival time with the no-response
error instead of waiting out the window; (iii) only a message whose
`RequestID` equals the correlation id is accepted, and on a match exactly
that one message is acknowledged. -/
theorem C2_single_read_semantics :
    (∀ requestID : String,
      (validateTokenViaRedis requestID none .timeout).result
          = .error .timeoutWaiting ∧
      (validateTokenViaRedis requestID none .timeout).elapsed
          = authWaitWindow ∧
      (validateTokenViaRedis requestID none .timeout).acked = []) ∧
    (∀ (requestID : String) (t : ℚ) (msgs : List StreamMsg),
      findResponse requestID msgs = none →
        (validateTokenViaRedis requestID none (.messages t msgs)).result
            = .error .noResponse ∧
        (validateTokenViaRedis requestID none (.messages t msgs)).elapsed
            = t ∧
        (validateTokenViaRedis requestID none (.messages t msgs)).acked
            = []) ∧
    (∀ (requestID : String) (t : ℚ) (msgs : List StreamMsg)
       (mid : String) (r : AuthValidationResponse),
      findResponse requestID msgs = some (mid, r) →
        r.requestID = requestID ∧
        (validateTokenViaRedis requestID none (.messages t msgs)).acked
            = [mid]) := by
  refine ⟨?_, ?_, ?_⟩
  · intro requestID
    exact ⟨rfl, rfl, rfl⟩
  · intro requestID t msgs h
    simp [validateTokenViaRedis, h]
  · intro requestID t msgs mid r h
    refine ⟨findResponse_requestID requestID msgs mid r h, ?_⟩
    cases hv : r.valid <;> simp [validateTokenViaRedis, h, hv]

/-- Witness for C2: a timeout read fails with the timeout error at
exactly 5 s; a batch holding only an unparsable message yields the
no-response error at its arrival time with nothing acknowledged; a batch
holding the matching response gets exactly that message acknowledged. -/
theorem C2_single_read_semantics_witness :
    ((validateTokenViaRedis "rid" none .timeout).result
        = .error .timeoutWaiting ∧
     (validateTokenViaRedis "rid" none .timeout).elapsed
        = authWaitWindow ∧
     (validateTokenViaRedis "rid" none .timeout).acked = []) ∧
    ((validateTokenViaRedis "rid" none
        (.messages 2 [⟨"m1", .badJson "oops"⟩])).result
        = .error .noResponse ∧
     (validateTokenViaRedis "rid" none
        (.messages 2 [⟨"m1", .badJson "oops"⟩])).elapsed = 2 ∧
     (validateTokenViaRedis "rid" none
        (.messages 2 [⟨"m1", .badJson "oops"⟩])).acked = []) ∧
    ((⟨"rid", false, none, "expired"⟩ :
        AuthValidationResponse).requestID = "rid" ∧
     (validateTokenViaRedis "rid" none (.messages 1
        [⟨"m1", .resp ⟨"rid", false, none, "expired"⟩⟩])).acked
        = ["m1"]) := by
  refine ⟨C2_single_read_semantics.1 "rid", ?_, ?_⟩
  · exact C2_single_read_semantics.2.1 "rid" 2 [⟨"m1", .badJson "oops"⟩]
      (by decide)
  · exact C2_single_read_semantics.2.2 "rid" 1
      [⟨"m1", .resp ⟨"rid", false, none, "expired"⟩⟩] "m1"
      ⟨"rid", false, none, "expired"⟩ (by decide)

/-! ## Metrics snapshot isolation (`GetMetrics`, processor lines 308–341)

To make "deep copy" meaningful, Go pointers are modelled explicitly: a
`PtrHeap` maps addresses to objects, the live `GatewayMetrics` maps
service names to addresses, and `GetMetrics` allocates fresh addresses
holding copies.  Mutations (`updateRequestMetrics`,
`updateLatencyMetrics` through the entry pointers, and
`performHealthCheck`'s store of a freshly allocated result) write the
live object and its heap cells only. -/

structure PtrHeap (α : Type) where
  mem : ℕ → α
  next : ℕ

def PtrHeap.write {α : Type} (h : PtrHeap α) (a : ℕ) (v : α) : PtrHeap α :=
  { h with mem := fun b => if b = a then v else h.mem b }

/-- The live metrics object: scalar fields plus pointer-valued maps. -/
structure GMObj where
  totalRequests : ℤ
  successRequests : ℤ
  errorRequests : ℤ
  averageLatency : ℚ
  serviceMetrics : List (String × ℕ)
  healthStats : List (String × ℕ)

structure MetricsWorld where
  smHeap : PtrHeap ServiceMetrics
  hcHeap : PtrHeap HealthCheckResult
  live : GMObj

/-- One fresh allocation holding the value at address `a` (one step of
the copy loops at lines 324–338 of `GetMetrics`). -/
def allocCopy {α : Type} (h : PtrHeap α) (a : ℕ) : PtrHeap α :=
  { mem := fun b => if b = h.next then h.mem a else h.mem b,
    next := h.next + 1 }

def copyEntries {α : Type} (h : PtrHeap α) :
    List (String × ℕ) → PtrHeap α × List (String × ℕ)
  | [] => (h, [])
  | (name, a) :: rest =>
      ((copyEntries (allocCopy h a) rest).1,
       (name, h.next) :: (copyEntries (allocCopy h a) rest).2)

/-- Dereference a pointer map into the contents it denotes. -/
def viewEntries {α : Type} (h : PtrHeap α) (entries : List (String × ℕ)) :
    List (String × α) :=
  entries.map (fun p => (p.1, h.mem p.2))

/-- `GetMetrics`: copy the scalar fields and build fresh copies of both
nested maps; the live object is untouched. -/
def GetMetricsH (w : MetricsWorld) : MetricsWorld × GMObj :=
  ({ smHeap := (copyEntries w.smHeap w.live.serviceMetrics).1
     hcHeap := (copyEntries w.hcHeap w.live.healthStats).1
     live := w.live },
   { totalRequests := w.live.totalRequests
     successRequests := w.live.successRequests
     errorRequests := w.live.errorRequests
     averageLatency := w.live.averageLatency
     serviceMetrics := (copyEntries w.smHeap w.live.serviceMetrics).2
     healthStats := (copyEntries w.hcHeap w.live.healthStats).2 })

/-- A mutation of the live metrics: a request-counter update, a latency
update, or a health-probe store of a freshly allocated result. -/
inductive LiveMut
  | recordRequest (service : String) (success : Bool) (now : ℚ)
  | recordLatency (service : String) (latencyMs : ℚ)
  | storeHealth (service : String) (r : HealthCheckResult)

def applyMut (w : MetricsWorld) : LiveMut → MetricsWorld
  | .recordRequest service success now =>
      let live1 : GMObj :=
        { w.live with
          totalRequests := w.live.totalRequests + 1
          successRequests :=
            if success then w.live.successRequests + 1
            else w.live.successRequests
          errorRequests :=
            if success then w.live.errorRequests
            else w.live.errorRequests + 1 }
      match mlookup service w.live.serviceMetrics with
      | none => { w with live := live1 }
      | some a =>
          let sm := w.smHeap.mem a
          { w with
            live := live1
            smHeap := w.smHeap.write a
              { sm with
                totalRequests := sm.totalRequests + 1
                lastRequest := now
                successRequests :=
                  if success then sm.successRequests + 1
                  else sm.successRequests
                errorRequests :=
                  if success then sm.errorRequests
                  else sm.errorRequests + 1 } }
  | .recordLatency service latencyMs =>
      let avg : ℚ :=
        if w.live.totalRequests = 1 then latencyMs
        else (w.live.averageLatency * ((w.live.totalRequests : ℚ) - 1)
                + latencyMs) / (w.live.totalRequests : ℚ)
      let live1 : GMObj := { w.live with averageLatency := avg }
      match mlookup service w.live.serviceMetrics with
      | none => { w with live := live1 }
      | some a =>
          let sm := w.smHeap.mem a
          let savg : ℚ :=
            if sm.totalRequests = 1 then latencyMs
            else (sm.averageLatency * ((sm.totalRequests : ℚ) - 1)
                    + latencyMs) / (sm.totalRequests : ℚ)
          { w with
            live := live1
            smHeap := w.smHeap.write a { sm with averageLatency := savg } }
  | .storeHealth service r =>
      { w with
        hcHeap := { mem := fun b => if b = w.hcHeap.next then r
                      else w.hcHeap.mem b,
                    next := w.hcHeap.next + 1 }
        live := { w.live with
                  healthStats := mupdate service w.hcHeap.next
                    w.live.healthStats } }

def applyMuts (w : MetricsWorld) : List LiveMut → MetricsWorld
  | [] => w
  | m :: ms => applyMuts (applyMut w m) ms

theorem viewEntries_congr {α : Type} (h1 h2 : PtrHeap α) :
    ∀ entries : List (String × ℕ),
      (∀ p ∈ entries, h2.mem p.2 = h1.mem p.2) →
      viewEntries h2 entries = viewEntries h1 entries
  | [], _ => rfl
  | p :: rest, h => by
      simp only [viewEntries, List.map_cons]
      rw [h p (List.mem_cons_self _ _)]
      have htail := viewEntries_congr h1 h2 rest
        (fun q hq => h q (List.mem_cons_of_mem _ hq))
      simp only [viewEntries] at htail
      rw [htail]

theorem copyEntries_spec {α : Type} :
    ∀ (entries : List (String × ℕ)) (h : PtrHeap α),
      (∀ p ∈ entries, p.2 < h.next) →
      h.next ≤ (copyEntries h entries).1.next ∧
      (∀ b, b < h.next → (copyEntries h entries).1.mem b = h.mem b) ∧
      (∀ p ∈ (copyEntries h entries).2,
        h.next ≤ p.2 ∧ p.2 < (copyEntries h entries).1.next) ∧
      viewEntries (copyEntries h entries).1 (copyEntries h entries).2
        = viewEntries h entries
  | [], h, _ => ⟨le_refl _, fun _ _ => rfl, by simp [copyEntries], rfl⟩
  | (name, a) :: rest, h, hwf => by
      have ha : a < h.next := hwf (name, a) (List.mem_cons_self _ _)
      have hbound : ∀ p ∈ rest, p.2 < (allocCopy h a).next := by
        intro p hp
        have := hwf p (List.mem_cons_of_mem _ hp)
        simp only [allocCopy]
        omega
      obtain ⟨IH1, IH2, IH3, IH4⟩ := copyEntries_spec rest (allocCopy h a)
        hbound
      have hanext : (allocCopy h a).next = h.next + 1 := rfl
      refine ⟨?_, ?_, ?_, ?_⟩
      · simp only [copyEntries]
        omega
      · intro b hb
        simp only [copyEntries]
        rw [IH2 b (by omega)]
        simp only [allocCopy]
        rw [if_neg (by omega)]
      · intro p hp
        simp only [copyEntries, List.mem_cons] at hp ⊢
        rcases hp with hph | hpt
        · subst hph
          exact ⟨le_refl _, by omega⟩
        · have := IH3 p hpt
          omega
      · simp only [copyEntries, viewEntries, List.map_cons]
        have hhead : (copyEntries (allocCopy h a) rest).1.mem h.next
            = h.mem a := by
          rw [IH2 h.next (by omega)]
          simp [allocCopy]
        rw [hhead]
        have htail : viewEntries (copyEntries (allocCopy h a) rest).1
            (copyEntries (allocCopy h a) rest).2
            = viewEntries (allocCopy h a) rest := IH4
        have hsame : viewEntries (allocCopy h a) rest
            = viewEntries h rest := by
          apply viewEntries_congr
          intro p hp
          have := hwf p (List.mem_cons_of_mem _ hp)
          simp only [allocCopy]
          rw [if_neg (by omega)]
        simp only [viewEntries] at htail hsame
        rw [htail, hsame]

theorem applyMut_sm_entries (w : MetricsWorld) (m : LiveMut) :
    (applyMut w m).live.serviceMetrics = w.live.serviceMetrics := by
  cases m with
  | recordRequest s b t =>
      cases hl : mlookup s w.live.serviceMetrics <;> simp [applyMut, hl]
  | recordLatency s d =>
      cases hl : mlookup s w.live.serviceMetrics <;> simp [applyMut, hl]
  | storeHealth s r => simp [applyMut]

theorem applyMut_hc_next (w : MetricsWorld) (m : LiveMut) :
    w.hcHeap.next ≤ (applyMut w m).hcHeap.next := by
  cases m with
  | recordRequest s b t =>
      cases hl : mlookup s w.live.serviceMetrics <;> simp [applyMut, hl]
  | recordLatency s d =>
      cases hl : mlookup s w.live.serviceMetrics <;> simp [applyMut, hl]
  | storeHealth s r => simp [applyMut]

theorem applyMut_sm_frame (w : MetricsWorld) (m : LiveMut) (lo : ℕ)
    (hlive : ∀ p ∈ w.live.serviceMetrics, p.2 < lo)
    (b : ℕ) (hb : lo ≤ b) :
    (applyMut w m).smHeap.mem b = w.smHeap.mem b := by
  cases m with
  | recordRequest s success t =>
      cases hl : mlookup s w.live.serviceMetrics with
      | none => simp [applyMut, hl]
      | some a =>
          have ha := hlive (s, a) (mlookup_mem hl)
          simp only [applyMut, hl, PtrHeap.write]
          rw [if_neg (by simp at ha; omega)]
  | recordLatency s d =>
      cases hl : mlookup s w.live.serviceMetrics with
      | none => simp [applyMut, hl]
      | some a =>
          have ha := hlive (s, a) (mlookup_mem hl)
          simp only [applyMut, hl, PtrHeap.write]
          rw [if_neg (by simp at ha; omega)]
  | storeHealth s r => simp [applyMut]

theorem applyMut_hc_frame (w : MetricsWorld) (m : LiveMut)
    (b : ℕ) (hb : b < w.hcHeap.next) :
    (applyMut w m).hcHeap.mem b = w.hcHeap.mem b := by
  cases m with
  | recordRequest s success t =>
      cases hl : mlookup s w.live.serviceMetrics <;> simp [applyMut, hl]
  | recordLatency s d =>
      cases hl : mlookup s w.live.serviceMetrics <;> simp [applyMut, hl]
  | storeHealth s r =>
      simp only [applyMut]
      rw [if_neg (by omega)]

theorem applyMuts_frame (lo : ℕ) :
    ∀ (ms : List LiveMut) (w : MetricsWorld),
      (∀ p ∈ w.live.serviceMetrics, p.2 < lo) →
      (∀ b, lo ≤ b → (applyMuts w ms).smHeap.mem b = w.smHeap.mem b) ∧
      (∀ b, b < w.hcHeap.next →
        (applyMuts w ms).hcHeap.mem b = w.hcHeap.mem b)
  | [], _, _ => ⟨fun _ _ => rfl, fun _ _ => rfl⟩
  | m :: ms, w, hlive => by
      have hlive2 : ∀ p ∈ (applyMut w m).live.serviceMetrics, p.2 < lo := by
        rw [applyMut_sm_entries]
        exact hlive
      obtain ⟨IH1, IH2⟩ := applyMuts_frame lo ms (applyMut w m) hlive2
      refine ⟨?_, ?_⟩
      · intro b hb
        simp only [applyMuts]
        rw [IH1 b hb, applyMut_sm_frame w m lo hlive b hb]
      · intro b hb
        simp only [applyMuts]
        rw [IH2 b (lt_of_lt_of_le hb (applyMut_hc_next w m)),
          applyMut_hc_frame w m b hb]

/-- C9: `GetMetrics` returns a structure sharing no mutable cells with
the live state — the scalar fields are copied, both nested maps point at
freshly allocated copies whose dereferenced contents equal the live
contents at snapshot time, and after **any** sequence of later live
mutations (request-counter updates, latency updates, health-probe
stores) the snapshot's dereferenced contents are unchanged. -/
theorem C9_snapshot_isolated (w : MetricsWorld) (ms : List LiveMut)
    (hwfS : ∀ p ∈ w.live.serviceMetrics, p.2 < w.smHeap.next)
    (hwfH : ∀ p ∈ w.live.healthStats, p.2 < w.hcHeap.next) :
    (GetMetricsH w).2.totalRequests = w.live.totalRequests ∧
    (GetMetricsH w).2.successRequests = w.live.successRequests ∧
    (GetMetricsH w).2.errorRequests = w.live.errorRequests ∧
    (GetMetricsH w).2.averageLatency = w.live.averageLatency ∧
    viewEntries (GetMetricsH w).1.smHeap (GetMetricsH w).2.serviceMetrics
      = viewEntries w.smHeap w.live.serviceMetrics ∧
    viewEntries (GetMetricsH w).1.hcHeap (GetMetricsH w).2.healthStats
      = viewEntries w.hcHeap w.live.healthStats ∧
    viewEntries (applyMuts (GetMetricsH w).1 ms).smHeap
        (GetMetricsH w).2.serviceMetrics
      = viewEntries (GetMetricsH w).1.smHeap
          (GetMetricsH w).2.serviceMetrics ∧
    viewEntries (applyMuts (GetMetricsH w).1 ms).hcHeap
        (GetMetricsH w).2.healthStats
      = viewEntries (GetMetricsH w).1.hcHeap
          (GetMetricsH w).2.healthStats := by
  obtain ⟨hS1, hS2, hS3, hS4⟩ :=
    copyEntries_spec w.live.serviceMetrics w.smHeap hwfS
  obtain ⟨hH1, hH2, hH3, hH4⟩ :=
    copyEntries_spec w.live.healthStats w.hcHeap hwfH
  have hlive : ∀ p ∈ (GetMetricsH w).1.live.serviceMetrics,
      p.2 < w.smHeap.next := hwfS
  obtain ⟨hF1, hF2⟩ := applyMuts_frame w.smHeap.next ms (GetMetricsH w).1
    hlive
  refine ⟨rfl, rfl, rfl, rfl, hS4, hH4, ?_, ?_⟩
  · apply viewEntries_congr
    intro p hp
    exact hF1 p.2 (hS3 p hp).1
  · apply viewEntries_congr
    intro p hp
    exact hF2 p.2 (hH3 p hp).2

def smHeap0 : PtrHeap ServiceMetrics :=
  { mem := fun a => if a = 0 then ⟨3, 2, 1, 5, 7⟩ else ⟨0, 0, 0, 0, 0⟩,
    next := 1 }

def hcHeap0 : PtrHeap HealthCheckResult :=
  { mem := fun _ => ⟨"auth", "healthy", "http://localhost:8081/health",
      1, "", 0⟩,
    next := 1 }

def world0 : MetricsWorld :=
  { smHeap := smHeap0, hcHeap := hcHeap0,
    live := { totalRequests := 3, successRequests := 2, errorRequests := 1,
              averageLatency := 5, serviceMetrics := [("auth", 0)],
              healthStats := [("auth", 0)] } }

def muts0 : List LiveMut :=
  [LiveMut.recordRequest "auth" false 9, LiveMut.recordLatency "auth" 11,
   LiveMut.storeHealth "auth" ⟨"auth", "unhealthy",
     "http://localhost:8081/health", 2, "connection refused", 9⟩]

/-- Witness for C9: a concrete world with one service entry — the
snapshot copies the counters and both maps, and a subsequent
error-request update, latency update, and health store leave the
snapshot's dereferenced contents untouched. -/
theorem C9_snapshot_isolated_witness :
    (GetMetricsH world0).2.totalRequests = world0.live.totalRequests ∧
    (GetMetricsH world0).2.successRequests = world0.live.successRequests ∧
    (GetMetricsH world0).2.errorRequests = world0.live.errorRequests ∧
    (GetMetricsH world0).2.averageLatency = world0.live.averageLatency ∧
    viewEntries (GetMetricsH world0).1.smHeap
        (GetMetricsH world0).2.serviceMetrics
      = viewEntries world0.smHeap world0.live.serviceMetrics ∧
    viewEntries (GetMetricsH world0).1.hcHeap
        (GetMetricsH world0).2.healthStats
      = viewEntries world0.hcHeap world0.live.healthStats ∧
    viewEntries (applyMuts (GetMetricsH world0).1 muts0).smHeap
        (GetMetricsH world0).2.serviceMetrics
      = viewEntries (GetMetricsH world0).1.smHeap
          (GetMetricsH world0).2.serviceMetrics ∧
    viewEntries (applyMuts (GetMetricsH world0).1 muts0).hcHeap
        (GetMetricsH world0).2.healthStats
      = viewEntries (GetMetricsH world0).1.hcHeap
          (GetMetricsH world0).2.healthStats :=
  C9_snapshot_isolated world0 muts0
    (by
      intro p hp
      simp only [world0, List.mem_singleton] at hp
      subst hp
      simp [world0, smHeap0])
    (by
      intro p hp
      simp only [world0, List.mem_singleton] at hp
      subst hp
      simp [world0, hcHeap0])
